import Mathlib

/-!
Verification development for the nlp-search-videos pipeline.

The Python modules are shallowly embedded as Lean definitions:

* `src/modules/scene_utils.py` — scene frame sampling (`get_scene_frame_samples`);
* `src/modules/clip_embeddings.py` — threshold fallback loop and frame-record
  construction in `process_video_embeddings`;
* `src/modules/chromadb_manager.py` — the embedding-store adapter entry points;
* `src/main.py` — `process_video_to_chromadb` and `process_multiple_videos`;
* `src/modules/text_search.py` — `save_matched_frames`.

External effects (video decoding, the CLIP encoder, the chromadb client,
the filesystem) are modelled as explicit oracle parameters; machine floats
on the Python side are modelled as rationals.
-/

namespace NSV

/-- Python `round(a / b)` for natural `a` and positive natural `b`:
round-half-to-even of the exact rational `a / b`, expressed with integer
division.  This models the `round(scene_length/no_of_samples)` expression in
`src/modules/scene_utils.py`. -/
def pyRoundDiv (a b : ℕ) : ℕ :=
  let q := a / b
  let r := a % b
  if 2 * r < b then q
  else if b < 2 * r then q + 1
  else if q % 2 = 0 then q else q + 1

/-- Per-scene body of `get_scene_frame_samples` (src/modules/scene_utils.py,
lines 17-22): `scene_length = abs(start - end)`, `every_n =
round(scene_length/no_of_samples)`, samples `[(every_n * n) + start for n in
range(3)]`.  Note the source iterates `range(3)`, not `range(no_of_samples)`. -/
def sceneSamples (start_frame stop_frame no_of_samples : ℕ) : List ℕ :=
  let scene_length := ((start_frame : ℤ) - (stop_frame : ℤ)).natAbs
  let every_n := pyRoundDiv scene_length no_of_samples
  (List.range 3).map (fun n => every_n * n + start_frame)

/-- `get_scene_frame_samples` (src/modules/scene_utils.py): one sample list per
detected scene, scenes given as `(start_frame_num, end_frame_num)` pairs. -/
def get_scene_frame_samples (scenes : List (ℕ × ℕ)) (no_of_samples : ℕ) :
    List (List ℕ) :=
  scenes.map (fun sc => sceneSamples sc.1 sc.2 no_of_samples)

theorem pyRoundDiv_two_mul_le (L c : ℕ) (hc : 3 ≤ c) :
    2 * pyRoundDiv L c ≤ L := by
  unfold pyRoundDiv
  have hc0 : 0 < c := by omega
  have hqr : c * (L / c) + L % c = L := Nat.div_add_mod L c
  have hr : L % c < c := Nat.mod_lt _ hc0
  have hq3 : 3 * (L / c) ≤ c * (L / c) := Nat.mul_le_mul_right _ hc
  have key : 3 * (L / c) + L % c ≤ L :=
    calc 3 * (L / c) + L % c ≤ c * (L / c) + L % c := Nat.add_le_add_right hq3 _
      _ = L := hqr
  dsimp only
  split_ifs with h1 h2 h3 <;> omega

/-- Claim C1, evaluation at the failing input: for a scene `(0, 90)` and
`no_of_samples = 2` the code produces `[0, 45, 90]`, three samples instead
of the two the spec requires — the source iterates the hard-coded `range(3)`
rather than `range(no_of_samples)`. -/
theorem sceneSamples_count_two_gives_three :
    sceneSamples 0 90 2 = [0, 45, 90] ∧ (sceneSamples 0 90 2).length = 3 ∧
      (sceneSamples 0 90 2).length ≠ 2 := by
  refine ⟨by decide, by decide, by decide⟩

/-- Claim C5 counterexample: for the non-degenerate scene `(0, 90)` and sample
count `1`, the sampler emits the frame number `180`, which is outside the
closed interval `[0, 90]`; the claim fails as stated. -/
theorem sceneSamples_out_of_bounds :
    sceneSamples 0 90 1 = [0, 90, 180] ∧
      ¬ (∀ x ∈ sceneSamples 0 90 1, x ≤ 90) := by
  refine ⟨by decide, by decide⟩

/-- Claim C5 (amended): for every non-degenerate scene with
`start_frame ≤ stop_frame` and every sample count `count ≥ 3`, all frame
numbers produced by the sampler lie within
`[start_frame_number, end_frame_number]`. -/
theorem sceneSamples_within_bounds (s e c : ℕ) (hse : s < e) (hc : 3 ≤ c) :
    ∀ x ∈ sceneSamples s e c, s ≤ x ∧ x ≤ e := by
  intro x hx
  unfold sceneSamples at hx
  simp only [List.mem_map, List.mem_range] at hx
  obtain ⟨n, hn, rfl⟩ := hx
  have hlen : ((s : ℤ) - (e : ℤ)).natAbs = e - s := by omega
  rw [hlen]
  have hkey : 2 * pyRoundDiv (e - s) c ≤ e - s := pyRoundDiv_two_mul_le _ _ hc
  have hmul : pyRoundDiv (e - s) c * n ≤ pyRoundDiv (e - s) c * 2 :=
    Nat.mul_le_mul_left _ (by omega)
  constructor
  · exact Nat.le_add_left s _
  · omega

/-- Witness for `sceneSamples_within_bounds` at scene `(0, 90)`, count `3`,
sample `60`. -/
theorem sceneSamples_within_bounds_witness :
    (60 : ℕ) ∈ sceneSamples 0 90 3 ∧ (0 ≤ 60 ∧ 60 ≤ 90) := by
  refine ⟨by decide, ?_⟩
  have h := sceneSamples_within_bounds 0 90 3 (by decide) (by decide)
    60 (by decide)
  exact ⟨Nat.zero_le _, h.2⟩

/-- The threshold list tried by `process_video_embeddings`
(src/modules/clip_embeddings.py, line 43). -/
def thresholds : List ℚ := [15, 10, 5, 2]

/-- The threshold loop of `process_video_embeddings`: for each threshold in
order, call the scene sampler (abstracted as `detect`, the per-threshold
result of `get_scene_frame_samples`); stop at the first nonempty result.
If every threshold yields `[]`, the loop leaves `[]`. -/
def tryThresholds (detect : ℚ → List (List ℕ)) : List ℚ → List (List ℕ)
  | [] => []
  | t :: ts => if (detect t).isEmpty then tryThresholds detect ts else detect t

/-- The fallback sampling of `process_video_embeddings`
(src/modules/clip_embeddings.py, line 62): `[int(total_frames * i / 3) for i
in range(3)]`. -/
def fallbackSamples (total_frames : ℕ) : List ℕ :=
  (List.range 3).map (fun i => total_frames * i / 3)

/-- Scene selection in `process_video_embeddings`: the threshold loop, then —
if it found nothing — the whole-video fallback when the video has at least one
frame, and the empty result otherwise. -/
def selectScenes (detect : ℚ → List (List ℕ)) (total_frames : ℕ) :
    List (List ℕ) :=
  let s := tryThresholds detect thresholds
  if s.isEmpty then
    if 0 < total_frames then [fallbackSamples total_frames] else []
  else s

theorem tryThresholds_all_empty (detect : ℚ → List (List ℕ)) :
    ∀ ts : List ℚ, (∀ t ∈ ts, detect t = []) → tryThresholds detect ts = [] := by
  intro ts
  induction ts with
  | nil => intro _; rfl
  | cons t ts ih =>
      intro h
      unfold tryThresholds
      rw [h t (by simp)]
      simp only [List.isEmpty_nil, if_true]
      exact ih (fun u hu => h u (List.mem_cons_of_mem _ hu))

theorem tryThresholds_first (detect : ℚ → List (List ℕ)) :
    ∀ pre t (post : List ℚ), (∀ u ∈ pre, detect u = []) → detect t ≠ [] →
      tryThresholds detect (pre ++ t :: post) = detect t := by
  intro pre
  induction pre with
  | nil =>
      intro t post _ ht
      simp only [List.nil_append, tryThresholds]
      rw [if_neg (by simpa [List.isEmpty_iff] using ht)]
  | cons u pre ih =>
      intro t post h ht
      rw [List.cons_append]
      simp only [tryThresholds]
      rw [h u (by simp)]
      simp only [List.isEmpty_nil, if_true]
      exact ih t post (fun v hv => h v (List.mem_cons_of_mem _ hv)) ht

theorem fallbackSamples_lt (total_frames : ℕ) (h : 0 < total_frames) :
    ∀ x ∈ fallbackSamples total_frames, x < total_frames := by
  intro x hx
  unfold fallbackSamples at hx
  simp only [List.mem_map, List.mem_range] at hx
  obtain ⟨i, hi, rfl⟩ := hx
  have h2 : total_frames * i ≤ total_frames * 2 :=
    Nat.mul_le_mul_left _ (by omega)
  have h3 : total_frames * i / 3 ≤ total_frames * 2 / 3 :=
    Nat.div_le_div_right h2
  have h4 : total_frames * 2 / 3 < total_frames :=
    Nat.div_lt_of_lt_mul (by omega)
  omega

/-- Claim C2: segmentation tries the thresholds `[15.0, 10.0, 5.0, 2.0]` in
order and stops at the first one yielding at least one scene; if all of them
yield zero scenes, the result is exactly one scene spanning the whole video
(sampled across `[0, total_frame_count)`), so every readable video with at
least one frame yields at least one scene. -/
theorem selectScenes_spec (detect : ℚ → List (List ℕ)) (total_frames : ℕ)
    (htf : 0 < total_frames) :
    (∀ pre t (post : List ℚ), thresholds = pre ++ t :: post →
        (∀ u ∈ pre, detect u = []) → detect t ≠ [] →
        selectScenes detect total_frames = detect t)
    ∧ ((∀ t ∈ thresholds, detect t = []) →
        selectScenes detect total_frames = [fallbackSamples total_frames]
        ∧ (selectScenes detect total_frames).length = 1
        ∧ ∀ x ∈ fallbackSamples total_frames, x < total_frames)
    ∧ selectScenes detect total_frames ≠ [] := by
  refine ⟨?_, ?_, ?_⟩
  · intro pre t post hsplit hpre ht
    unfold selectScenes
    rw [hsplit, tryThresholds_first detect pre t post hpre ht]
    rw [if_neg (by simpa [List.isEmpty_iff] using ht)]
  · intro hall
    have he : tryThresholds detect thresholds = [] :=
      tryThresholds_all_empty detect thresholds hall
    have hsel : selectScenes detect total_frames = [fallbackSamples total_frames] := by
      unfold selectScenes
      rw [he]
      simp only [List.isEmpty_nil, if_true, if_pos htf]
    exact ⟨hsel, by rw [hsel]; rfl, fallbackSamples_lt total_frames htf⟩
  · unfold selectScenes
    dsimp only
    by_cases h1 : (tryThresholds detect thresholds).isEmpty = true
    · rw [if_pos h1, if_pos htf]
      simp
    · rw [if_neg h1]
      simpa [List.isEmpty_iff] using h1

/-- Witness for `selectScenes_spec`: when no threshold finds a scene in a
90-frame video, the result is the single fallback scene sampled at
`[0, 30, 60]`. -/
theorem selectScenes_spec_witness :
    selectScenes (fun _ => ([] : List (List ℕ))) 90 = [[0, 30, 60]] ∧
      selectScenes (fun _ => ([] : List (List ℕ))) 90 ≠ [] := by
  have h := selectScenes_spec (fun _ => ([] : List (List ℕ))) 90 (by decide)
  have h1 := (h.2.1 (fun _ _ => rfl)).1
  refine ⟨?_, h.2.2⟩
  rw [h1]
  decide

/-- Decimal rendering of a natural number, most significant digit first.
This is the reference decimal notation used by the spec for the id template;
it is proved below to agree with `Nat.repr`, which models Python's
`str`/f-string rendering of a non-negative `int`. -/
def natDecimalL (n : ℕ) : List Char :=
  if _h : n < 10 then [Nat.digitChar n]
  else natDecimalL (n / 10) ++ [Nat.digitChar (n % 10)]
decreasing_by exact Nat.div_lt_self (by omega) (by omega)

theorem toDigitsCore_eq_natDecimalL (fuel : ℕ) :
    ∀ (n : ℕ) (ds : List Char), n < fuel →
      Nat.toDigitsCore 10 fuel n ds = natDecimalL n ++ ds := by
  induction fuel with
  | zero => intro n ds h; omega
  | succ fuel ih =>
      intro n ds h
      rw [Nat.toDigitsCore]
      by_cases h0 : n / 10 = 0
      · rw [if_pos h0, natDecimalL, dif_pos (by omega : n < 10)]
        rw [Nat.mod_eq_of_lt (by omega : n < 10)]
        rfl
      · rw [if_neg h0]
        have hrhs : natDecimalL n = natDecimalL (n / 10) ++ [Nat.digitChar (n % 10)] := by
          rw [natDecimalL]
          rw [dif_neg (by omega : ¬ n < 10)]
        rw [hrhs, ih (n / 10) _ (by omega), List.append_assoc]
        rfl

theorem repr_data_eq_natDecimalL (n : ℕ) : (Nat.repr n).data = natDecimalL n := by
  show (Nat.toDigits 10 n).asString.data = natDecimalL n
  unfold Nat.toDigits
  rw [toDigitsCore_eq_natDecimalL (n + 1) n [] (Nat.lt_succ_self n)]
  rw [List.append_nil]
  rfl

theorem digitChar_ne_underscore (d : ℕ) (hd : d < 10) :
    Nat.digitChar d ≠ '_' := by
  interval_cases d <;> decide

theorem natDecimalL_ne_underscore (n : ℕ) :
    ∀ ch ∈ natDecimalL n, ch ≠ '_' := by
  induction n using Nat.strong_induction_on with
  | _ n ih =>
      intro ch hch
      rw [natDecimalL] at hch
      by_cases h : n < 10
      · rw [dif_pos h] at hch
        simp only [List.mem_singleton] at hch
        subst hch
        exact digitChar_ne_underscore n h
      · rw [dif_neg h] at hch
        rcases List.mem_append.mp hch with h1 | h2
        · exact ih (n / 10) (Nat.div_lt_self (by omega) (by omega)) ch h1
        · simp only [List.mem_singleton] at h2
          subst h2
          exact digitChar_ne_underscore _ (Nat.mod_lt _ (by omega))

theorem digitChar_toNat (d : ℕ) (h : d < 10) : (Nat.digitChar d).toNat = 48 + d := by
  interval_cases d <;> decide

theorem foldl_natDecimalL (n : ℕ) :
    ∀ a : ℕ,
      (natDecimalL n).foldl (fun acc ch => 10 * acc + (ch.toNat - 48)) a
        = a * 10 ^ (natDecimalL n).length + n := by
  induction n using Nat.strong_induction_on with
  | _ n ih =>
      intro a
      rw [natDecimalL]
      by_cases h : n < 10
      · rw [dif_pos h]
        simp only [List.foldl_cons, List.foldl_nil, List.length_singleton]
        rw [digitChar_toNat n h]
        omega
      · rw [dif_neg h]
        rw [List.foldl_append]
        simp only [List.foldl_cons, List.foldl_nil, List.length_append,
          List.length_singleton]
        rw [ih (n / 10) (Nat.div_lt_self (by omega) (by omega)) a]
        rw [digitChar_toNat _ (Nat.mod_lt _ (by omega))]
        have hstep : 48 + n % 10 - 48 = n % 10 := by omega
        rw [hstep]
        have hmod : 10 * (n / 10) + n % 10 = n := by omega
        calc 10 * (a * 10 ^ (natDecimalL (n / 10)).length + n / 10) + n % 10
            = a * (10 ^ (natDecimalL (n / 10)).length * 10) +
                (10 * (n / 10) + n % 10) := by ring
          _ = a * 10 ^ ((natDecimalL (n / 10)).length + 1) + n := by
                rw [hmod, pow_succ]

theorem natDecimalL_inj {m n : ℕ} (h : natDecimalL m = natDecimalL n) :
    m = n := by
  have hm := foldl_natDecimalL m 0
  have hn := foldl_natDecimalL n 0
  rw [h] at hm
  simp only [Nat.zero_mul, Nat.zero_add] at hm hn
  omega

theorem append_underscore_inj :
    ∀ (xs xs' ys ys' : List Char), (∀ c ∈ xs, c ≠ '_') → (∀ c ∈ xs', c ≠ '_') →
      xs ++ '_' :: ys = xs' ++ '_' :: ys' → xs = xs' ∧ ys = ys' := by
  intro xs
  induction xs with
  | nil =>
      intro xs' ys ys' _ hx' h
      cases xs' with
      | nil => simpa using h
      | cons c cs =>
          exfalso
          rw [List.nil_append, List.cons_append] at h
          have hc : '_' = c := (List.cons.injEq _ _ _ _ ▸ h).1
          exact hx' c (by simp) hc.symm
  | cons c cs ih =>
      intro xs' ys ys' hx hx' h
      cases xs' with
      | nil =>
          exfalso
          rw [List.nil_append, List.cons_append] at h
          have hc : c = '_' := (List.cons.injEq _ _ _ _ ▸ h).1
          exact hx c (by simp) hc
      | cons c' cs' =>
          rw [List.cons_append, List.cons_append] at h
          have h1 := (List.cons.injEq _ _ _ _ ▸ h).1
          have h2 := (List.cons.injEq _ _ _ _ ▸ h).2
          have := ih cs' ys ys' (fun d hd => hx d (by simp [hd]))
            (fun d hd => hx' d (by simp [hd])) h2
          exact ⟨by rw [h1, this.1], this.2⟩

/-- The frame identity builder of `process_video_embeddings`
(src/modules/clip_embeddings.py, line 88):
`f"scene_{scene_idx}_frame_{frame_idx}_sample_{frame_sample}"`, with the
integers rendered in decimal by `Nat.repr` (the model of Python `str`). -/
def frameId (scene_idx frame_idx frame_sample : ℕ) : String :=
  "scene_" ++ Nat.repr scene_idx ++ "_frame_" ++ Nat.repr frame_idx ++
    "_sample_" ++ Nat.repr frame_sample

/-- The id template as the spec words it (§4.4): the three integers rendered
in standard decimal notation between the fixed separators. -/
def specBuildId (scene_idx frame_idx frame_sample : ℕ) : String :=
  "scene_" ++ String.mk (natDecimalL scene_idx) ++ "_frame_" ++
    String.mk (natDecimalL frame_idx) ++ "_sample_" ++
    String.mk (natDecimalL frame_sample)

theorem repr_eq_natDecimal (n : ℕ) : Nat.repr n = String.mk (natDecimalL n) :=
  String.ext (repr_data_eq_natDecimalL n)

/-- Claim C4: the identity builder is a pure, total, deterministic function:
it is a Lean `def` (hence total and effect-free), two applications to equal
inputs are equal, and for every input it produces exactly the string
`scene_{scene_idx}_frame_{frame_idx}_sample_{frame_sample}` with the integers
in decimal notation, as the spec's template requires. -/
theorem frameId_total_deterministic (a b c a' b' c' : ℕ) :
    frameId a b c = specBuildId a b c ∧
      (a = a' ∧ b = b' ∧ c = c' → frameId a b c = frameId a' b' c') := by
  constructor
  · unfold frameId specBuildId
    rw [repr_eq_natDecimal, repr_eq_natDecimal, repr_eq_natDecimal]
  · rintro ⟨rfl, rfl, rfl⟩
    rfl

/-- Witness for `frameId_total_deterministic` at `(0, 1, 30)`. -/
theorem frameId_total_deterministic_witness :
    frameId 0 1 30 = specBuildId 0 1 30 ∧ frameId 0 1 30 = frameId 0 1 30 :=
  ⟨(frameId_total_deterministic 0 1 30 0 1 30).1,
    (frameId_total_deterministic 0 1 30 0 1 30).2 ⟨rfl, rfl, rfl⟩⟩

theorem chunks_inj (A B C A' B' C' : List Char)
    (hA : ∀ ch ∈ A, ch ≠ '_') (hB : ∀ ch ∈ B, ch ≠ '_')
    (hA' : ∀ ch ∈ A', ch ≠ '_') (hB' : ∀ ch ∈ B', ch ≠ '_')
    (h : ("scene_" : String).data ++ (A ++ (("_frame_" : String).data ++
          (B ++ (("_sample_" : String).data ++ C))))
        = ("scene_" : String).data ++ (A' ++ (("_frame_" : String).data ++
          (B' ++ (("_sample_" : String).data ++ C')))) ) :
    A = A' ∧ B = B' ∧ C = C' := by
  have h1 := List.append_cancel_left h
  have hF : ("_frame_" : String).data = '_' :: ("frame_" : String).data := rfl
  have hP : ("_sample_" : String).data = '_' :: ("sample_" : String).data := rfl
  rw [hF, hP] at h1
  simp only [List.cons_append] at h1
  have h2 := append_underscore_inj A A' _ _ hA hA' h1
  refine ⟨h2.1, ?_⟩
  have h3 := h2.2
  simp only [List.cons.injEq, List.nil_append, true_and] at h3
  have h4 := append_underscore_inj B B' _ _ hB hB' h3
  refine ⟨h4.1, ?_⟩
  have h5 := h4.2
  simp only [List.cons.injEq, List.nil_append, true_and] at h5
  exact h5

/-- `frameId` is injective: equal id strings force equal
`(scene_idx, frame_idx, frame_sample)` triples.  The decimal chunks contain no
underscore, so the fixed separators parse the id unambiguously. -/
theorem frameId_inj {a b c a' b' c' : ℕ}
    (h : frameId a b c = frameId a' b' c') : a = a' ∧ b = b' ∧ c = c' := by
  have hd : (frameId a b c).data = (frameId a' b' c').data := by rw [h]
  unfold frameId at hd
  simp only [String.data_append, List.append_assoc] at hd
  rw [repr_data_eq_natDecimalL a, repr_data_eq_natDecimalL b,
    repr_data_eq_natDecimalL c, repr_data_eq_natDecimalL a',
    repr_data_eq_natDecimalL b', repr_data_eq_natDecimalL c'] at hd
  have := chunks_inj _ _ _ _ _ _ (natDecimalL_ne_underscore a)
    (natDecimalL_ne_underscore b) (natDecimalL_ne_underscore a')
    (natDecimalL_ne_underscore b') hd
  exact ⟨natDecimalL_inj this.1, natDecimalL_inj this.2.1,
    natDecimalL_inj this.2.2⟩

/-- `os.path.basename`: the part of a path after its last `/`. -/
def basename (p : String) : String :=
  String.mk (p.data.foldl (fun acc ch => if ch = '/' then [] else acc ++ [ch]) [])

/-- The metadata mapping attached to each frame record
(src/modules/clip_embeddings.py, lines 92-98). -/
structure FrameMetadata where
  video_path : String
  scene_idx : ℕ
  frame_idx : ℕ
  frame_sample : ℕ
  video_name : String
deriving DecidableEq

/-- A stored frame record: id plus metadata.  The embedding vector is the
external encoder's output and is not modelled. -/
structure FrameRecord where
  id : String
  metadata : FrameMetadata
deriving DecidableEq

/-- One entry of `embeddings_data` as `process_video_embeddings` appends it
(src/modules/clip_embeddings.py, lines 86-99). -/
def mkRecord (video_path : String) (scene_idx frame_idx frame_sample : ℕ) :
    FrameRecord :=
  { id := frameId scene_idx frame_idx frame_sample
    metadata :=
      { video_path := video_path
        scene_idx := scene_idx
        frame_idx := frame_idx
        frame_sample := frame_sample
        video_name := basename video_path } }

/-- The inner loop of `process_video_embeddings` over one scene's samples:
`for frame_idx, frame_sample in enumerate(scene_samples)`, skipping samples
whose frame read fails (`readOK` is the `cap.read()` oracle). -/
def sceneRecords (vp : String) (readOK : ℕ → Bool) (scene_idx : ℕ) :
    ℕ → List ℕ → List FrameRecord
  | _, [] => []
  | frame_idx, fs :: rest =>
      (if readOK fs then [mkRecord vp scene_idx frame_idx fs] else []) ++
        sceneRecords vp readOK scene_idx (frame_idx + 1) rest

/-- The outer loop of `process_video_embeddings` over scenes:
`for scene_idx in range(len(scenes_frame_samples))`. -/
def embeddingsData (vp : String) (readOK : ℕ → Bool) :
    ℕ → List (List ℕ) → List FrameRecord
  | _, [] => []
  | scene_idx, sc :: rest =>
      sceneRecords vp readOK scene_idx 0 sc ++
        embeddingsData vp readOK (scene_idx + 1) rest

theorem mem_sceneRecords {vp : String} {ok : ℕ → Bool} {si : ℕ} :
    ∀ (l : List ℕ) (fi : ℕ) (r : FrameRecord), r ∈ sceneRecords vp ok si fi l →
      r = mkRecord vp si r.metadata.frame_idx r.metadata.frame_sample ∧
        r.metadata.scene_idx = si ∧ fi ≤ r.metadata.frame_idx := by
  intro l
  induction l with
  | nil => intro fi r hr; simp [sceneRecords] at hr
  | cons fs rest ih =>
      intro fi r hr
      rw [sceneRecords] at hr
      rcases List.mem_append.mp hr with h1 | h2
      · by_cases hok : ok fs = true
        · rw [if_pos hok] at h1
          simp only [List.mem_singleton] at h1
          subst h1
          exact ⟨rfl, rfl, le_rfl⟩
        · rw [if_neg hok] at h1
          simp at h1
      · have h := ih (fi + 1) r h2
        exact ⟨h.1, h.2.1, by omega⟩

theorem sceneRecords_keys_nodup {vp : String} {ok : ℕ → Bool} {si : ℕ} :
    ∀ (l : List ℕ) (fi : ℕ),
      ((sceneRecords vp ok si fi l).map
        (fun r => (r.metadata.scene_idx, r.metadata.frame_idx))).Nodup := by
  intro l
  induction l with
  | nil => intro fi; simp [sceneRecords]
  | cons fs rest ih =>
      intro fi
      rw [sceneRecords, List.map_append, List.nodup_append]
      refine ⟨?_, ih (fi + 1), ?_⟩
      · by_cases hok : ok fs = true
        · rw [if_pos hok]; simp
        · rw [if_neg hok]; simp
      · intro p hp hq
        by_cases hok : ok fs = true
        · rw [if_pos hok] at hp
          simp only [List.map_cons, List.map_nil, List.mem_singleton] at hp
          subst hp
          rw [List.mem_map] at hq
          obtain ⟨r, hr, hkey⟩ := hq
          have hge := (mem_sceneRecords rest (fi + 1) r hr).2.2
          have : r.metadata.frame_idx = fi := congrArg Prod.snd hkey
          omega
        · rw [if_neg hok] at hp
          simp at hp

theorem mem_embeddingsData {vp : String} {ok : ℕ → Bool} :
    ∀ (scenes : List (List ℕ)) (si : ℕ) (r : FrameRecord),
      r ∈ embeddingsData vp ok si scenes →
        r = mkRecord vp r.metadata.scene_idx r.metadata.frame_idx
              r.metadata.frame_sample ∧ si ≤ r.metadata.scene_idx := by
  intro scenes
  induction scenes with
  | nil => intro si r hr; simp [embeddingsData] at hr
  | cons sc rest ih =>
      intro si r hr
      rw [embeddingsData] at hr
      rcases List.mem_append.mp hr with h1 | h2
      · have h := mem_sceneRecords sc 0 r h1
        exact ⟨by rw [← h.2.1] at h ⊢; exact h.1, by omega⟩
      · have h := ih (si + 1) r h2
        exact ⟨h.1, by omega⟩

theorem embeddingsData_keys_nodup {vp : String} {ok : ℕ → Bool} :
    ∀ (scenes : List (List ℕ)) (si : ℕ),
      ((embeddingsData vp ok si scenes).map
        (fun r => (r.metadata.scene_idx, r.metadata.frame_idx))).Nodup := by
  intro scenes
  induction scenes with
  | nil => intro si; simp [embeddingsData]
  | cons sc rest ih =>
      intro si
      rw [embeddingsData, List.map_append, List.nodup_append]
      refine ⟨sceneRecords_keys_nodup sc 0, ih (si + 1), ?_⟩
      intro p hp hq
      rw [List.mem_map] at hp hq
      obtain ⟨r1, hr1, hk1⟩ := hp
      obtain ⟨r2, hr2, hk2⟩ := hq
      have e1 := (mem_sceneRecords sc 0 r1 hr1).2.1
      have e2 := (mem_embeddingsData rest (si + 1) r2 hr2).2
      have c1 : p.1 = r1.metadata.scene_idx := by rw [← hk1]
      have c2 : p.1 = r2.metadata.scene_idx := by rw [← hk2]
      omega

/-- Claim C3 (amended): within the records produced by a single run of
`process_video_embeddings` on one video, distinct records have distinct id
strings.  Across videos this fails, because the id does not mention the
video: see the counterexample `frame_ids_collide_across_videos`. -/
theorem embeddingsData_ids_distinct (vp : String) (ok : ℕ → Bool)
    (scenes : List (List ℕ)) (r1 r2 : FrameRecord)
    (h1 : r1 ∈ embeddingsData vp ok 0 scenes)
    (h2 : r2 ∈ embeddingsData vp ok 0 scenes)
    (hne : r1 ≠ r2) : r1.id ≠ r2.id := by
  intro hid
  have s1 := (mem_embeddingsData scenes 0 r1 h1).1
  have s2 := (mem_embeddingsData scenes 0 r2 h2).1
  have k1 : r1.id = frameId r1.metadata.scene_idx r1.metadata.frame_idx
      r1.metadata.frame_sample := by
    conv_lhs => rw [s1]
    rfl
  have k2 : r2.id = frameId r2.metadata.scene_idx r2.metadata.frame_idx
      r2.metadata.frame_sample := by
    conv_lhs => rw [s2]
    rfl
  rw [k1, k2] at hid
  have hcomp := frameId_inj hid
  have hkey : (r1.metadata.scene_idx, r1.metadata.frame_idx)
      = (r2.metadata.scene_idx, r2.metadata.frame_idx) := by
    rw [hcomp.1, hcomp.2.1]
  have := List.inj_on_of_nodup_map (embeddingsData_keys_nodup scenes 0)
    h1 h2 hkey
  exact hne this

/-- Witness for `embeddingsData_ids_distinct`: the two records produced for a
single two-sample scene of one video carry distinct ids. -/
theorem embeddingsData_ids_distinct_witness :
    (mkRecord "v.mp4" 0 0 0).id ≠ (mkRecord "v.mp4" 0 1 30).id :=
  embeddingsData_ids_distinct "v.mp4" (fun _ => true) [[0, 30]]
    (mkRecord "v.mp4" 0 0 0) (mkRecord "v.mp4" 0 1 30)
    (by decide) (by decide) (by decide)

/-- Claim C3 counterexample: indexing two different videos with the same
scene structure into the same collection produces two distinct `FrameRecord`s
with the same id string, so ids are not unique within a collection. -/
theorem frame_ids_collide_across_videos :
    embeddingsData "a.mp4" (fun _ => true) 0 [[5]]
        = [mkRecord "a.mp4" 0 0 5] ∧
      embeddingsData "b.mp4" (fun _ => true) 0 [[5]]
        = [mkRecord "b.mp4" 0 0 5] ∧
      mkRecord "a.mp4" 0 0 5 ≠ mkRecord "b.mp4" 0 0 5 ∧
      (mkRecord "a.mp4" 0 0 5).id = (mkRecord "b.mp4" 0 0 5).id := by
  refine ⟨rfl, rfl, by decide, rfl⟩

/-- Outcome of an underlying chromadb query: the parallel result arrays, as
returned by `collection.query`. -/
structure QueryResult where
  ids : List (List String)
  distances : List (List ℚ)
  metadatas : List (List FrameMetadata)
deriving DecidableEq

/-- A value of the info dictionary returned by `get_collection_info`. -/
inductive InfoVal where
  | str (s : String)
  | nat (n : ℕ)
deriving DecidableEq

/-- `ChromaDBManager.save_embeddings` (src/modules/chromadb_manager.py,
lines 35-71).  The manager's collection is modelled by its record list; the
underlying `collection.add`/`count` calls inside the `try` block may raise,
which is modelled by the `storeErr` oracle.  Empty input returns `False`
before any store call; a raised store error is caught and also yields
`False` with the collection untouched. -/
def save_embeddings (collection : List FrameRecord)
    (embeddings_data : List FrameRecord) (storeErr : Option String) :
    Bool × List FrameRecord :=
  if embeddings_data.isEmpty then (false, collection)
  else
    match storeErr with
    | some _ => (false, collection)
    | none => (true, collection ++ embeddings_data)

/-- `ChromaDBManager.search_similar_frames`: the underlying
`collection.query` outcome is passed through on success; any raised error is
caught and `None` is returned. -/
def search_similar_frames (queryOutcome : Except String QueryResult) :
    Option QueryResult :=
  match queryOutcome with
  | .ok r => some r
  | .error _ => none

/-- `ChromaDBManager.search_by_metadata`: same catch-all shape as
`search_similar_frames`, over the metadata-filtered `collection.query`. -/
def search_by_metadata (queryOutcome : Except String QueryResult) :
    Option QueryResult :=
  match queryOutcome with
  | .ok r => some r
  | .error _ => none

/-- `ChromaDBManager.delete_embeddings`: on success the listed ids are
removed and `True` returned; a raised store error is caught and `False`
returned with the collection untouched. -/
def delete_embeddings (collection : List FrameRecord) (ids : List String)
    (storeErr : Option String) : Bool × List FrameRecord :=
  match storeErr with
  | some _ => (false, collection)
  | none => (true, collection.filter (fun r => !ids.contains r.id))

/-- `ChromaDBManager.get_collection_info`: the info dictionary on success,
the empty dictionary when the underlying `count` raises. -/
def get_collection_info (collection_name db_path : String)
    (countOutcome : Except String ℕ) : List (String × InfoVal) :=
  match countOutcome with
  | .ok n =>
      [("collection_name", InfoVal.str collection_name),
       ("total_embeddings", InfoVal.nat n),
       ("db_path", InfoVal.str db_path)]
  | .error _ => []

/-- Claim C6: inserting an empty record sequence returns `False` without
raising and without modifying the collection, for every collection state and
every behaviour of the underlying store. -/
theorem save_embeddings_empty (collection : List FrameRecord)
    (storeErr : Option String) :
    save_embeddings collection [] storeErr = (false, collection) := rfl

/-- Claim C7: every entry point of the store adapter maps an error raised by
the underlying store to its failure value — `False` (with the collection
unchanged) for `save_embeddings` and `delete_embeddings`, `None` for the two
searches, and the empty dictionary for `get_collection_info` — instead of
letting the exception escape. -/
theorem adapter_catches_store_errors (e : String)
    (collection : List FrameRecord) (embeddings_data : List FrameRecord)
    (ids : List String) (collection_name db_path : String) :
    save_embeddings collection embeddings_data (some e) = (false, collection)
    ∧ search_similar_frames (.error e) = none
    ∧ search_by_metadata (.error e) = none
    ∧ delete_embeddings collection ids (some e) = (false, collection)
    ∧ get_collection_info collection_name db_path (.error e) = [] := by
  refine ⟨?_, rfl, rfl, rfl, rfl⟩
  unfold save_embeddings
  by_cases h : embeddings_data.isEmpty
  · rw [if_pos h]
  · rw [if_neg h]

/-- The per-video environment seen by `process_video_to_chromadb`
(src/main.py, lines 17-84): whether `os.path.exists` succeeds, whether the
manager construction or `process_video_embeddings` raises (these are the only
calls in the `try` block that can raise — `save_embeddings` and
`get_collection_info` catch internally), the number of embeddings generated,
whether the store insert succeeds, and the collection info dictionary. -/
structure VideoEnv where
  fileExists : Bool
  pipelineExc : Option String
  embCount : ℕ
  saveOk : Bool
  collection_info : List (String × InfoVal)
deriving DecidableEq

/-- The outcome dictionary of `process_video_to_chromadb`; its fields are
exactly the keys `success`, `video_path`, `embeddings_count`, `error`,
`collection_info` of the result dict in src/main.py lines 29-35. -/
structure ProcessResult where
  success : Bool
  video_path : String
  embeddings_count : ℕ
  error : Option String
  collection_info : List (String × InfoVal)
deriving DecidableEq

/-- `process_video_to_chromadb` (src/main.py): validate the path, generate
embeddings, save them, and collect info, returning the structured outcome in
every case (a raised exception is caught and recorded in `error`). -/
def process_video_to_chromadb (video_path : String) (env : VideoEnv) :
    ProcessResult :=
  if env.fileExists = false then
    { success := false, video_path := video_path, embeddings_count := 0
      error := some ("Video file not found: " ++ video_path)
      collection_info := [] }
  else
    match env.pipelineExc with
    | some e =>
        { success := false, video_path := video_path, embeddings_count := 0
          error := some ("Unexpected error: " ++ e), collection_info := [] }
    | none =>
        if env.embCount = 0 then
          { success := false, video_path := video_path, embeddings_count := 0
            error := some "No embeddings generated from video"
            collection_info := [] }
        else if env.saveOk = false then
          { success := false, video_path := video_path, embeddings_count := 0
            error := some "Failed to save embeddings to ChromaDB"
            collection_info := [] }
        else
          { success := true, video_path := video_path
            embeddings_count := env.embCount, error := none
            collection_info := env.collection_info }

/-- `process_multiple_videos` (src/main.py, lines 86-128): process each video
in order, appending its outcome to the results list. -/
def process_multiple_videos (videos : List (String × VideoEnv)) :
    List ProcessResult :=
  videos.map (fun v => process_video_to_chromadb v.1 v.2)

/-- The aggregate embedding total of the batch summary:
`sum(r["embeddings_count"] for r in results)`. -/
def batch_total_embeddings (results : List ProcessResult) : ℕ :=
  (results.map (fun r => r.embeddings_count)).sum

/-- Shared shape lemma for the per-video outcome: success iff no recorded
error, zero count on failure, positive count on success, and the input path
echoed back. -/
theorem process_video_outcome (video_path : String) (env : VideoEnv) :
    ((process_video_to_chromadb video_path env).success = true
        ↔ (process_video_to_chromadb video_path env).error = none)
    ∧ ((process_video_to_chromadb video_path env).success = false
        → (process_video_to_chromadb video_path env).embeddings_count = 0)
    ∧ ((process_video_to_chromadb video_path env).success = true
        → 0 < (process_video_to_chromadb video_path env).embeddings_count)
    ∧ (process_video_to_chromadb video_path env).video_path = video_path := by
  unfold process_video_to_chromadb
  by_cases h1 : env.fileExists = false
  · rw [if_pos h1]
    simp
  · rw [if_neg h1]
    cases env.pipelineExc with
    | some e => simp
    | none =>
        by_cases h2 : env.embCount = 0
        · rw [if_pos h2]
          simp
        · rw [if_neg h2]
          by_cases h3 : env.saveOk = false
          · rw [if_pos h3]
            simp
          · rw [if_neg h3]
            simp
            omega

/-- Claim C10: for every video path and every environment (including an
internal exception), `process_video_to_chromadb` returns a `ProcessResult`
(whose fields are exactly the keys `success`, `video_path`,
`embeddings_count`, `error`, `collection_info`) with `success = true` iff
`error = none`, `embeddings_count = 0` whenever it fails, strictly positive
`embeddings_count` whenever it succeeds, and the input path echoed back. -/
theorem process_video_result_invariant (video_path : String) (env : VideoEnv) :
    ((process_video_to_chromadb video_path env).success = true
        ↔ (process_video_to_chromadb video_path env).error = none)
    ∧ ((process_video_to_chromadb video_path env).success = false
        → (process_video_to_chromadb video_path env).embeddings_count = 0)
    ∧ ((process_video_to_chromadb video_path env).success = true
        → 0 < (process_video_to_chromadb video_path env).embeddings_count)
    ∧ (process_video_to_chromadb video_path env).video_path = video_path :=
  process_video_outcome video_path env

/-- Witness for `process_video_result_invariant` on a missing file. -/
theorem process_video_result_invariant_witness :
    (process_video_to_chromadb "missing.mp4"
        ⟨false, none, 0, true, []⟩).embeddings_count = 0
    ∧ (process_video_to_chromadb "missing.mp4"
        ⟨false, none, 0, true, []⟩).error ≠ none := by
  have h := process_video_result_invariant "missing.mp4" ⟨false, none, 0, true, []⟩
  refine ⟨h.2.1 (by decide), ?_⟩
  intro he
  exact absurd (h.1.mpr he) (by decide)

/-- Claim C8: the batch orchestrator returns exactly one outcome per input
video, in input order (the i-th outcome is the processing of the i-th video,
so one video's failure leaves every other video's outcome intact); a failed
video's outcome carries `success = false` with a recorded error and zero
count; and the aggregate total is the sum of the per-video
`embeddings_count` values. -/
theorem process_multiple_videos_spec (videos : List (String × VideoEnv)) :
    (process_multiple_videos videos).length = videos.length
    ∧ (∀ i : ℕ, (process_multiple_videos videos)[i]?
        = (videos[i]?).map (fun v => process_video_to_chromadb v.1 v.2))
    ∧ (∀ r ∈ process_multiple_videos videos,
        r.success = false → r.error ≠ none ∧ r.embeddings_count = 0)
    ∧ batch_total_embeddings (process_multiple_videos videos)
        = (videos.map
            (fun v => (process_video_to_chromadb v.1 v.2).embeddings_count)).sum := by
  refine ⟨by simp [process_multiple_videos], ?_, ?_, ?_⟩
  · intro i
    unfold process_multiple_videos
    rw [List.getElem?_map]
  · intro r hr hfail
    unfold process_multiple_videos at hr
    rw [List.mem_map] at hr
    obtain ⟨v, hv, rfl⟩ := hr
    have h := process_video_outcome v.1 v.2
    constructor
    · intro he
      have hs := h.1.mpr he
      rw [hfail] at hs
      simp at hs
    · exact h.2.1 hfail
  · unfold batch_total_embeddings process_multiple_videos
    rw [List.map_map]
    rfl

/-- Witness for `process_multiple_videos_spec` on a two-video batch whose
first video is missing: two outcomes, a recorded error for the failed one,
and the aggregate equal to the successful video's count. -/
theorem process_multiple_videos_spec_witness :
    (process_multiple_videos
        [("missing.mp4", ⟨false, none, 0, true, []⟩),
         ("ok.mp4", ⟨true, none, 5, true, []⟩)]).length = 2
    ∧ ((process_video_to_chromadb "missing.mp4"
          ⟨false, none, 0, true, []⟩).error ≠ none
        ∧ (process_video_to_chromadb "missing.mp4"
          ⟨false, none, 0, true, []⟩).embeddings_count = 0)
    ∧ batch_total_embeddings (process_multiple_videos
        [("missing.mp4", ⟨false, none, 0, true, []⟩),
         ("ok.mp4", ⟨true, none, 5, true, []⟩)]) = 5 := by
  have h := process_multiple_videos_spec
    [("missing.mp4", ⟨false, none, 0, true, []⟩),
     ("ok.mp4", ⟨true, none, 5, true, []⟩)]
  refine ⟨h.1.trans (by decide), ?_, h.2.2.2.trans (by decide)⟩
  exact h.2.2.1 (process_video_to_chromadb "missing.mp4"
    ⟨false, none, 0, true, []⟩) (by decide) (by decide)

/-- Directory sanitization in `save_matched_frames`
(src/modules/text_search.py, line 63): spaces, forward and back slashes are
replaced by underscores (the three patterns are single characters, so
`str.replace` is a character map). -/
def sanitize_query (text_query : String) : String :=
  String.mk (text_query.data.map
    (fun ch => if ch = ' ' ∨ ch = '/' ∨ ch = '\\' then '_' else ch))

/-- Floor of a rational, computed on the normalized numerator/denominator. -/
def ratFloor (q : ℚ) : ℤ := Int.fdiv q.num (q.den : ℤ)

/-- Python `round` on an exact rational: round-half-to-even. -/
def pythonRound (q : ℚ) : ℤ :=
  let f := ratFloor q
  let r := q - (f : ℚ)
  if r < 1 / 2 then f
  else if 1 / 2 < r then f + 1
  else if f % 2 = 0 then f else f + 1

/-- Three-digit zero padding of a natural number below 1000. -/
def pad3 (n : ℕ) : String :=
  if n < 10 then "00" ++ Nat.repr n
  else if n < 100 then "0" ++ Nat.repr n
  else Nat.repr n

/-- Python `f"{x:.3f}"` on an exact rational: round to three decimals
(half-to-even) and print with sign, integer part and three fractional
digits. -/
def format3f (q : ℚ) : String :=
  let m := pythonRound (q * 1000)
  if m < 0 then
    "-" ++ Nat.repr (m.natAbs / 1000) ++ "." ++ pad3 (m.natAbs % 1000)
  else
    Nat.repr (m.toNat / 1000) ++ "." ++ pad3 (m.toNat % 1000)

/-- Python `f"{i+1:02d}"`: the rank zero-padded to two digits. -/
def rank2 (n : ℕ) : String :=
  if n < 10 then "0" ++ Nat.repr n else Nat.repr n

/-- One hit of the query result consumed by `save_matched_frames`: id,
distance and the metadata fields it reads. -/
structure SearchHit where
  frame_id : String
  distance : ℚ
  video_path : String
  frame_sample : ℕ
deriving DecidableEq

/-- The image file name written for one matched frame
(src/modules/text_search.py, line 84):
`f"{i+1:02d}_{frame_id}_similarity_{similarity:.3f}.jpg"` with
`similarity = 1 - distance`. -/
def matched_filename (rank : ℕ) (frame_id : String) (distance : ℚ) : String :=
  rank2 rank ++ "_" ++ frame_id ++ "_similarity_" ++ format3f (1 - distance)
    ++ ".jpg"

/-- The per-hit loop of `save_matched_frames`: seek and decode the source
frame (`decodeOK` is the `cap.read()` oracle); on success write the image
file, on failure (or a raised error in the `try`) report and continue with
the next hit.  Returns the list of written file paths. -/
def save_matched_aux (dir : String) (decodeOK : String → ℕ → Bool) :
    ℕ → List SearchHit → List String
  | _, [] => []
  | i, h :: rest =>
      (if decodeOK h.video_path h.frame_sample then
        [dir ++ "/" ++ matched_filename (i + 1) h.frame_id h.distance]
      else []) ++ save_matched_aux dir decodeOK (i + 1) rest

/-- `save_matched_frames` (src/modules/text_search.py, lines 52-95): empty
results are reported and nothing is written; otherwise each hit is processed
in order under `matched_imgs/<sanitized query>/`. -/
def save_matched_frames (text_query : String) (hits : List SearchHit)
    (decodeOK : String → ℕ → Bool) : List String :=
  if hits.isEmpty then []
  else save_matched_aux ("matched_imgs/" ++ sanitize_query text_query)
    decodeOK 0 hits

theorem mem_save_matched_aux (dir : String) (decodeOK : String → ℕ → Bool) :
    ∀ (hits : List SearchHit) (k i : ℕ) (hi : i < hits.length),
      decodeOK (hits.get ⟨i, hi⟩).video_path (hits.get ⟨i, hi⟩).frame_sample = true →
      (dir ++ "/" ++ matched_filename (k + i + 1) (hits.get ⟨i, hi⟩).frame_id
          (hits.get ⟨i, hi⟩).distance)
        ∈ save_matched_aux dir decodeOK k hits := by
  intro hits
  induction hits with
  | nil => intro k i hi; exact absurd hi (by simp)
  | cons h rest ih =>
      intro k i hi hdec
      cases i with
      | zero =>
          rw [save_matched_aux]
          apply List.mem_append_left
          rw [if_pos (show decodeOK h.video_path h.frame_sample = true from hdec)]
          exact List.Mem.head _
      | succ j =>
          rw [save_matched_aux]
          apply List.mem_append_right
          have harith : k + (j + 1) + 1 = (k + 1) + j + 1 := by omega
          rw [harith]
          exact ih (k + 1) j (by simpa using hi) hdec

/-- Claim C9: for every query, every result list and every decode behaviour,
each hit whose frame decodes successfully gets an image file written at
`matched_imgs/<sanitized query>/<rank>_<frame id>_similarity_<score>.jpg`
where the rank is the 1-based position and the score is `1 - distance`
printed to three decimals; decode failures of other hits do not remove it
(the loop continues past them). -/
theorem save_matched_frames_writes (text_query : String)
    (hits : List SearchHit) (decodeOK : String → ℕ → Bool) (i : ℕ)
    (hi : i < hits.length)
    (hdec : decodeOK (hits.get ⟨i, hi⟩).video_path
      (hits.get ⟨i, hi⟩).frame_sample = true) :
    ("matched_imgs/" ++ sanitize_query text_query ++ "/" ++
        matched_filename (i + 1) (hits.get ⟨i, hi⟩).frame_id
          (hits.get ⟨i, hi⟩).distance)
      ∈ save_matched_frames text_query hits decodeOK := by
  unfold save_matched_frames
  rw [if_neg (by
    intro hempty
    rw [List.isEmpty_iff] at hempty
    rw [hempty] at hi
    exact absurd hi (by simp))]
  have h := mem_save_matched_aux ("matched_imgs/" ++ sanitize_query text_query)
    decodeOK hits 0 i hi hdec
  have hassoc : "matched_imgs/" ++ sanitize_query text_query ++ "/" ++
      matched_filename (i + 1) (hits.get ⟨i, hi⟩).frame_id
        (hits.get ⟨i, hi⟩).distance
      = ("matched_imgs/" ++ sanitize_query text_query) ++ "/" ++
        matched_filename (0 + i + 1) (hits.get ⟨i, hi⟩).frame_id
          (hits.get ⟨i, hi⟩).distance := by
    rw [Nat.zero_add]
  rw [hassoc]
  exact h

/-- Witness for `save_matched_frames_writes`: in a two-hit result where the
first frame fails to decode, the second hit is still written, with rank 2 and
similarity `1 - 1/4`. -/
theorem save_matched_frames_writes_witness :
    ("matched_imgs/" ++ sanitize_query "kitchen scene" ++ "/" ++
        matched_filename 2 "scene_0_frame_1_sample_30" (1 / 4))
      ∈ save_matched_frames "kitchen scene"
        [⟨"scene_0_frame_0_sample_0", 9 / 10, "a.mp4", 0⟩,
         ⟨"scene_0_frame_1_sample_30", 1 / 4, "b.mp4", 30⟩]
        (fun _ fs => fs == 30) :=
  save_matched_frames_writes "kitchen scene"
    [⟨"scene_0_frame_0_sample_0", 9 / 10, "a.mp4", 0⟩,
     ⟨"scene_0_frame_1_sample_30", 1 / 4, "b.mp4", 30⟩]
    (fun _ fs => fs == 30) 1 (by decide) (by decide)

end NSV
